import Mathlib

/-!
Verification development for the BrightNotes meeting-transcription backend
(`backend/services.py`).  The definitions below are a shallow embedding of the
audio-segmentation, transcription-fallback and key-sanitisation logic of that
module; external effects (filesystem, ffmpeg/ffprobe, the S3 client and both
transcription providers) are abstracted as explicit environment records, and
Python floats are modelled by rationals.  Exceptions are modelled with
`Except String`, and the unbounded recursion of `split_wav_to_chunks` is made
total with an explicit fuel parameter (`none` = fuel exhausted).
-/

namespace BrightNotes

/-- Python truncation `int(q)` on a rational: toward zero. -/
def pyint (q : ℚ) : ℤ := if 0 ≤ q then ⌊q⌋ else ⌈q⌉

/-- Environment abstracting the filesystem and external tools consulted by
`split_wav_to_chunks` (services.py lines 203-241): `pathExists` and `size`
model `Path.exists` and `stat().st_size`; `duration` models
`get_audio_duration_seconds` (seconds, as a rational); `ffmpegAvailable`
models `find_ffmpeg() is not None`; `segment wav t` models the sorted list of
chunk files found on disk after running
`ffmpeg -i wav -f segment -segment_time t -c copy` (lines 222-226). -/
structure SplitEnv where
  pathExists : String → Bool
  size : String → ℕ
  duration : String → ℚ
  ffmpegAvailable : Bool
  segment : String → ℤ → List String

/-- services.py lines 212-215: `bps = file_size / max(0.001, duration)` then
`target_seconds = max(5, int(max_bytes / bps))` (the following
`if target_seconds < 5` rebind is redundant given the `max`). -/
def targetSecondsOf (fileSize : ℕ) (duration : ℚ) (maxBytes : ℕ) : ℤ :=
  let bps : ℚ := (fileSize : ℚ) / max (1/1000) duration
  max 5 (pyint ((maxBytes : ℚ) / bps))

/-- The body of the per-chunk loop of `split_wav_to_chunks` (services.py lines
227-238): a chunk whose size exceeds `maxBytes` is re-split through `splitRec`
with half the byte budget and the resulting list spliced in; other chunks are
kept as they are.  (The `unlink` of a re-split chunk is a filesystem effect
with no bearing on the returned list.)  `splitRec` is instantiated with the
recursive call of `splitWavToChunks` at the remaining fuel. -/
def processChunks (env : SplitEnv)
    (splitRec : String → ℕ → Option (Except String (List String)))
    (maxBytes : ℕ) : List String → Option (Except String (List String))
  | [] => some (.ok [])
  | ch :: rest =>
    let head : Option (Except String (List String)) :=
      if maxBytes < env.size ch then splitRec ch (maxBytes / 2) else some (.ok [ch])
    match head with
    | none => none
    | some (.error e) => some (.error e)
    | some (.ok l1) =>
      match processChunks env splitRec maxBytes rest with
      | none => none
      | some (.error e) => some (.error e)
      | some (.ok l2) => some (.ok (l1 ++ l2))

/-- Shallow embedding of `split_wav_to_chunks` (services.py lines 203-241).
The fuel argument makes the (in Python unbounded) recursion total; a `none`
result means the fuel ran out before the recursion finished, `some (.error e)`
models a raised `RuntimeError`, and `some (.ok l)` models a normal return of
the list `l` of chunk paths. -/
def splitWavToChunks (env : SplitEnv) : ℕ → String → ℕ → Option (Except String (List String))
  | 0, _, _ => none
  | fuel + 1, wavPath, maxBytes =>
    if env.pathExists wavPath = false then
      some (.error ("WAV path missing: " ++ wavPath))
    else
      let fileSize := env.size wavPath
      let dur := env.duration wavPath
      if fileSize ≤ maxBytes then some (.ok [wavPath])
      else
        let targetSeconds := targetSecondsOf fileSize dur maxBytes
        if pyint dur ≤ targetSeconds then some (.ok [wavPath])
        else if env.ffmpegAvailable = false then
          some (.error "ffmpeg not found (needed for splitting)")
        else
          let chunks := env.segment wavPath targetSeconds
          match processChunks env (fun p b => splitWavToChunks env fuel p b) maxBytes chunks with
          | none => none
          | some (.error e) => some (.error e)
          | some (.ok finalChunks) =>
            if finalChunks = [] then some (.ok [wavPath]) else some (.ok finalChunks)

/-- Predicate: the splitter accepts path `p` as-is while it is still over the
byte budget `b`, because either the computed target segment duration already
reaches the measured integer duration (services.py line 216) or segmentation
produces no chunk files at all (line 239). -/
def acceptsOversize (env : SplitEnv) (p : String) (b : ℕ) : Prop :=
  b < env.size p ∧
    (pyint (env.duration p) ≤ targetSecondsOf (env.size p) (env.duration p) b ∨
      env.segment p (targetSecondsOf (env.size p) (env.duration p) b) = [])

lemma splitWavToChunks_ok_ne_nil (env : SplitEnv) (fuel : ℕ) (path : String) (maxBytes : ℕ)
    (l : List String) (h : splitWavToChunks env fuel path maxBytes = some (.ok l)) :
    l ≠ [] := by
  cases fuel with
  | zero => simp [splitWavToChunks] at h
  | succ fuel =>
    simp only [splitWavToChunks] at h
    repeat' split at h
    all_goals simp at h
    all_goals (subst h; simp_all)

lemma processChunks_ok_nil (env : SplitEnv)
    (splitRec : String → ℕ → Option (Except String (List String))) (maxBytes : ℕ)
    (hrec : ∀ ch l1, splitRec ch (maxBytes / 2) = some (.ok l1) → l1 ≠ []) :
    ∀ chunks, processChunks env splitRec maxBytes chunks = some (.ok []) → chunks = [] := by
  intro chunks h
  cases chunks with
  | nil => rfl
  | cons ch rest =>
    exfalso
    simp only [processChunks] at h
    by_cases hsz : maxBytes < env.size ch
    · rw [if_pos hsz] at h
      cases hr : splitRec ch (maxBytes / 2) with
      | none => rw [hr] at h; simp at h
      | some r =>
        rw [hr] at h
        cases r with
        | error e => simp at h
        | ok l1 =>
          cases hr2 : processChunks env splitRec maxBytes rest with
          | none => rw [hr2] at h; simp at h
          | some r2 =>
            rw [hr2] at h
            cases r2 with
            | error e => simp at h
            | ok l2 =>
              simp only [Option.some.injEq, Except.ok.injEq] at h
              exact hrec ch l1 hr (List.append_eq_nil.mp h).1
    · rw [if_neg hsz] at h
      cases hr2 : processChunks env splitRec maxBytes rest with
      | none => rw [hr2] at h; simp at h
      | some r2 =>
        rw [hr2] at h
        cases r2 with
        | error e => simp at h
        | ok l2 => simp at h

lemma processChunks_ok_mem (env : SplitEnv)
    (splitRec : String → ℕ → Option (Except String (List String))) (maxBytes : ℕ)
    (Q : String → Prop)
    (hrec : ∀ ch l1, splitRec ch (maxBytes / 2) = some (.ok l1) → ∀ p ∈ l1, Q p) :
    ∀ chunks l, processChunks env splitRec maxBytes chunks = some (.ok l) →
      ∀ p ∈ l, env.size p ≤ maxBytes ∨ Q p := by
  intro chunks
  induction chunks with
  | nil =>
    intro l h p hp
    simp only [processChunks, Option.some.injEq, Except.ok.injEq] at h
    subst h
    simp at hp
  | cons ch rest ih =>
    intro l h p hp
    simp only [processChunks] at h
    by_cases hsz : maxBytes < env.size ch
    · rw [if_pos hsz] at h
      cases hr : splitRec ch (maxBytes / 2) with
      | none => rw [hr] at h; simp at h
      | some r =>
        rw [hr] at h
        cases r with
        | error e => simp at h
        | ok l1 =>
          cases hr2 : processChunks env splitRec maxBytes rest with
          | none => rw [hr2] at h; simp at h
          | some r2 =>
            rw [hr2] at h
            cases r2 with
            | error e => simp at h
            | ok l2 =>
              simp only [Option.some.injEq, Except.ok.injEq] at h
              subst h
              rcases List.mem_append.mp hp with h1 | h2
              · exact Or.inr (hrec ch l1 hr p h1)
              · exact ih l2 hr2 p h2
    · rw [if_neg hsz] at h
      cases hr2 : processChunks env splitRec maxBytes rest with
      | none => rw [hr2] at h; simp at h
      | some r2 =>
        rw [hr2] at h
        cases r2 with
        | error e => simp at h
        | ok l2 =>
          simp only [Option.some.injEq, Except.ok.injEq] at h
          subst h
          rcases List.mem_append.mp hp with h1 | h2
          · rcases List.mem_singleton.mp h1 with rfl
            exact Or.inl (Nat.le_of_not_lt hsz)
          · exact ih l2 hr2 p h2

lemma split_mem_size_le (env : SplitEnv) :
    ∀ fuel path maxBytes l, splitWavToChunks env fuel path maxBytes = some (.ok l) →
      ∀ p ∈ l, env.size p ≤ maxBytes ∨ ∃ b, acceptsOversize env p b := by
  intro fuel
  induction fuel with
  | zero => intro path maxBytes l h; simp [splitWavToChunks] at h
  | succ fuel ih =>
    intro path maxBytes l h p hp
    simp only [splitWavToChunks] at h
    by_cases hex : env.pathExists path = false
    · rw [if_pos hex] at h; simp at h
    · rw [if_neg hex] at h
      by_cases hsz : env.size path ≤ maxBytes
      · rw [if_pos hsz] at h
        simp only [Option.some.injEq, Except.ok.injEq] at h
        subst h
        rcases List.mem_singleton.mp hp with rfl
        exact Or.inl hsz
      · rw [if_neg hsz] at h
        by_cases hts : pyint (env.duration path) ≤
            targetSecondsOf (env.size path) (env.duration path) maxBytes
        · rw [if_pos hts] at h
          simp only [Option.some.injEq, Except.ok.injEq] at h
          subst h
          rcases List.mem_singleton.mp hp with rfl
          exact Or.inr ⟨maxBytes, Nat.lt_of_not_le hsz, Or.inl hts⟩
        · rw [if_neg hts] at h
          by_cases hff : env.ffmpegAvailable = false
          · rw [if_pos hff] at h; simp at h
          · rw [if_neg hff] at h
            cases hpc : processChunks env (fun p b => splitWavToChunks env fuel p b) maxBytes
                (env.segment path (targetSecondsOf (env.size path) (env.duration path) maxBytes)) with
            | none => rw [hpc] at h; simp at h
            | some r =>
              rw [hpc] at h
              cases r with
              | error e => simp at h
              | ok finalChunks =>
                dsimp only at h
                by_cases hfc : finalChunks = []
                · rw [if_pos hfc] at h
                  simp only [Option.some.injEq, Except.ok.injEq] at h
                  subst h
                  rcases List.mem_singleton.mp hp with rfl
                  subst hfc
                  have hseg := processChunks_ok_nil env
                    (fun p b => splitWavToChunks env fuel p b) maxBytes
                    (fun ch l1 hh => splitWavToChunks_ok_ne_nil env fuel ch (maxBytes / 2) l1 hh)
                    _ hpc
                  exact Or.inr ⟨maxBytes, Nat.lt_of_not_le hsz, Or.inr hseg⟩
                · rw [if_neg hfc] at h
                  simp only [Option.some.injEq, Except.ok.injEq] at h
                  subst h
                  have := processChunks_ok_mem env
                    (fun p b => splitWavToChunks env fuel p b) maxBytes
                    (fun q => env.size q ≤ maxBytes / 2 ∨ ∃ b, acceptsOversize env q b)
                    (fun ch l1 hh q hq => ih ch (maxBytes / 2) l1 hh q hq)
                    _ finalChunks hpc p hp
                  rcases this with h1 | h2 | h3
                  · exact Or.inl h1
                  · exact Or.inl (le_trans h2 (Nat.div_le_self maxBytes 2))
                  · exact Or.inr h3

/-- Concrete split environment: a 200-byte file of 4 seconds, used against a
100-byte limit.  There the computed target duration is `max 5 ⌊100/50⌋ = 5`,
which reaches the integer duration 4, so the splitter returns the oversized
original unchanged (services.py line 216). -/
def splitCexEnv : SplitEnv where
  pathExists := fun _ => true
  size := fun p => if p = "a.wav" then 200 else 0
  duration := fun p => if p = "a.wav" then 4 else 0
  ffmpegAvailable := true
  segment := fun _ _ => []

lemma splitCexEnv_target : targetSecondsOf 200 4 100 = 5 := by
  unfold targetSecondsOf pyint
  rw [max_eq_right (by norm_num : (1/1000 : ℚ) ≤ 4)]
  norm_num

/-- Claim C1, as stated, is false on the code: for the 200-byte, 4-second file
of `splitCexEnv` and a 100-byte limit, `split_wav_to_chunks` returns the
original oversized file itself (its computed target duration, floored at 5,
is not below the integer measured duration, so line 216 returns early). -/
theorem C1_counterexample :
    splitWavToChunks splitCexEnv 5 "a.wav" 100 = some (.ok ["a.wav"]) ∧
      100 < splitCexEnv.size "a.wav" := by
  constructor
  · simp only [splitWavToChunks, splitCexEnv]
    norm_num [splitCexEnv_target, pyint]
  · norm_num [splitCexEnv]

/-- Claim C1 (amended): when the input exceeds the byte limit, every path
returned by `split_wav_to_chunks` either names a file of size at most the
limit, or is a segment the algorithm accepted as-is while still over some
byte budget — because at that budget the computed target duration reached the
measured integer duration, or segmentation produced no chunks. -/
theorem C1_amended (env : SplitEnv) (fuel : ℕ) (path : String) (maxBytes : ℕ)
    (l : List String) (_hover : maxBytes < env.size path)
    (h : splitWavToChunks env fuel path maxBytes = some (.ok l)) :
    ∀ p ∈ l, env.size p ≤ maxBytes ∨ ∃ b, acceptsOversize env p b :=
  split_mem_size_le env fuel path maxBytes l h

theorem C1_amended_witness :
    splitCexEnv.size "a.wav" ≤ 100 ∨ ∃ b, acceptsOversize splitCexEnv "a.wav" b :=
  C1_amended splitCexEnv 5 "a.wav" 100 ["a.wav"] (by norm_num [splitCexEnv])
    (by simp only [splitWavToChunks, splitCexEnv]
        norm_num [splitCexEnv_target, pyint])
    "a.wav" (List.mem_singleton.mpr rfl)

/-- Claim C3: an existing WAV file whose byte size is at or below the limit
(inclusive boundary) is returned as the one-element list holding the original
path, unsplit (services.py lines 210-211). -/
theorem C3_at_or_under_limit (env : SplitEnv) (fuel : ℕ) (path : String) (maxBytes : ℕ)
    (hex : env.pathExists path = true) (hsz : env.size path ≤ maxBytes) :
    splitWavToChunks env (fuel + 1) path maxBytes = some (.ok [path]) := by
  simp [splitWavToChunks, hex, hsz]

/-- Concrete boundary environment: a file of exactly 25,000,000 bytes. -/
def boundaryEnv : SplitEnv where
  pathExists := fun _ => true
  size := fun _ => 25000000
  duration := fun _ => 600
  ffmpegAvailable := true
  segment := fun _ _ => []

theorem C3_at_or_under_limit_witness :
    splitWavToChunks boundaryEnv 1 "meeting.wav" 25000000 = some (.ok ["meeting.wav"]) :=
  C3_at_or_under_limit boundaryEnv 0 "meeting.wav" 25000000 rfl (by decide)

/-- Claim C4: when a split is needed (file over the limit), the computed
target segment duration equals the measured duration times the ratio of the
byte limit to the file size, truncated to an integer and floored at a minimum
of 5 seconds (services.py lines 212-215; durations are nonnegative). -/
theorem C4_target_duration_formula (fileSize : ℕ) (duration : ℚ) (maxBytes : ℕ)
    (hd : 0 ≤ duration) (hover : maxBytes < fileSize) :
    targetSecondsOf fileSize duration maxBytes =
      max 5 (pyint (duration * ((maxBytes : ℚ) / (fileSize : ℚ)))) := by
  have hfsn : 0 < fileSize := lt_of_le_of_lt (Nat.zero_le _) hover
  have hfs0 : (0:ℚ) < (fileSize:ℚ) := by exact_mod_cast hfsn
  have hne : (fileSize:ℚ) ≠ 0 := ne_of_gt hfs0
  by_cases hc : (1/1000 : ℚ) ≤ duration
  · have hd0 : (0:ℚ) < duration := lt_of_lt_of_le (by norm_num) hc
    simp only [targetSecondsOf]
    rw [max_eq_right hc]
    have harg : (maxBytes:ℚ) / ((fileSize:ℚ) / duration) =
        duration * ((maxBytes:ℚ) / (fileSize:ℚ)) := by
      field_simp
      ring
    rw [harg]
  · push_neg at hc
    have hmax : max (1/1000 : ℚ) duration = 1/1000 := max_eq_left (le_of_lt hc)
    have hlt1 : (maxBytes:ℚ) / (fileSize:ℚ) < 1 := by
      rw [div_lt_one hfs0]
      exact_mod_cast hover
    have hnn : (0:ℚ) ≤ (maxBytes:ℚ) / (fileSize:ℚ) :=
      div_nonneg (by positivity) (le_of_lt hfs0)
    have hargL : (maxBytes:ℚ) / ((fileSize:ℚ) / (1/1000)) =
        ((maxBytes:ℚ) / (fileSize:ℚ)) * (1/1000) := by
      field_simp
    have hL : pyint ((maxBytes:ℚ) / ((fileSize:ℚ) / (1/1000))) = 0 := by
      rw [hargL]
      unfold pyint
      rw [if_pos (mul_nonneg hnn (by norm_num))]
      rw [Int.floor_eq_zero_iff]
      constructor
      · exact mul_nonneg hnn (by norm_num)
      · calc ((maxBytes:ℚ) / (fileSize:ℚ)) * (1/1000)
            ≤ 1 * (1/1000) := mul_le_mul_of_nonneg_right (le_of_lt hlt1) (by norm_num)
          _ < 1 := by norm_num
    have hR : pyint (duration * ((maxBytes:ℚ) / (fileSize:ℚ))) = 0 := by
      unfold pyint
      rw [if_pos (mul_nonneg hd hnn)]
      rw [Int.floor_eq_zero_iff]
      constructor
      · exact mul_nonneg hd hnn
      · calc duration * ((maxBytes:ℚ) / (fileSize:ℚ))
            ≤ duration * 1 := mul_le_mul_of_nonneg_left (le_of_lt hlt1) hd
          _ = duration := mul_one _
          _ < 1 := lt_trans hc (by norm_num)
    simp only [targetSecondsOf]
    rw [hmax, hL, hR]

/-- Witness for C4, also checking the spec example: a 10-minute (600 s) file
that is twice the 25,000,000-byte limit gets a target duration of exactly
300 seconds (5 minutes). -/
theorem C4_target_duration_formula_witness :
    targetSecondsOf 50000000 600 25000000 = 300 := by
  have h := C4_target_duration_formula 50000000 600 25000000 (by norm_num) (by norm_num)
  rw [h]
  have harg : (600:ℚ) * ((((25000000:ℕ)):ℚ) / (((50000000:ℕ)):ℚ)) = 300 := by
    push_cast
    norm_num
  rw [harg]
  have hp : pyint (300:ℚ) = 300 := by
    unfold pyint
    rw [if_pos (by norm_num)]
    norm_num
  rw [hp]
  exact max_eq_right (by norm_num)

/-- Claim C10: whenever `split_wav_to_chunks` returns normally, the returned
list is non-empty — an empty recursive filtering falls back to the original
input path as the single element (services.py lines 239-241). -/
theorem C10_result_nonempty (env : SplitEnv) (fuel : ℕ) (path : String) (maxBytes : ℕ)
    (l : List String) (h : splitWavToChunks env fuel path maxBytes = some (.ok l)) :
    l ≠ [] :=
  splitWavToChunks_ok_ne_nil env fuel path maxBytes l h

theorem C10_result_nonempty_witness : (["meeting.wav"] : List String) ≠ [] :=
  C10_result_nonempty boundaryEnv 1 "meeting.wav" 25000000 ["meeting.wav"] rfl

/-- Result of a successful `transcribe_with_openai_chunk` call (services.py
lines 446-491): the extracted text (possibly empty) and the raw provider
response, abstracted to an opaque string payload. -/
structure ChunkReply where
  text : String
  raw : String

/-- Entry of the per-segment raw-response list built by `transcribe_audio`
(lines 568 and 571): either the raw provider reply for the segment or the
`{"chunk_error": str(e)}` marker recorded when that segment failed. -/
inductive RawEntry where
  | reply (payload : String)
  | chunkError (msg : String)

/-- Result of a successful `transcribe_with_assemblyai` call (lines 397-441),
abstracted to its three returned fields. -/
structure AAReply where
  text : String
  speakers : List String
  raw : String

/-- Value of the `provider_raw` key of a `transcribe_audio` result: the hosted
provider's reply object (line 539) or the per-chunk list (line 575). -/
inductive ProviderRaw where
  | assembly (payload : String)
  | chunks (entries : List RawEntry)

/-- Dictionary returned by `transcribe_audio`: the upload-only base holds just
`s3_uri` and `file_size` (line 526); the transcription paths add `text`,
`speakers` and `provider_raw`, modelled as optional fields that are `none`
when the corresponding key is absent. -/
structure TAResult where
  s3_uri : String
  file_size : ℕ
  text : Option String := none
  speakers : Option (List String) := none
  provider_raw : Option ProviderRaw := none

/-- Text slot recorded for one segment outcome: the extracted text on success
(line 567; `x or ""` is the identity on strings), the placeholder marker on
failure (line 572). -/
def slotText : Except String ChunkReply → String
  | .ok r => r.text
  | .error _ => "(error transcribing chunk)"

/-- Raw-list slot recorded for one segment outcome (lines 568 and 571). -/
def slotRaw : Except String ChunkReply → RawEntry
  | .ok r => .reply r.raw
  | .error e => .chunkError e

/-- One iteration of the chunk loop of `transcribe_audio` (lines 564-572):
append the segment's text and raw entry to the two accumulators. -/
def loopStep (acc : List String × List RawEntry) (oc : Except String ChunkReply) :
    List String × List RawEntry :=
  match oc with
  | .ok r => (acc.1 ++ [r.text], acc.2 ++ [RawEntry.reply r.raw])
  | .error e => (acc.1 ++ ["(error transcribing chunk)"], acc.2 ++ [RawEntry.chunkError e])

/-- The chunk loop of `transcribe_audio` (lines 562-572): sequentially fold
the per-segment outcomes into `combined_texts` and `provider_raw_list`. -/
def transcribeChunksLoop (outcomes : List (Except String ChunkReply)) :
    List String × List RawEntry :=
  outcomes.foldl loopStep ([], [])

/-- Python `str.strip()` on ASCII whitespace. -/
def isPySpace (c : Char) : Bool :=
  c = ' ' ∨ c = '\t' ∨ c = '\n' ∨ c = '\r' ∨ c = '\x0b' ∨ c = '\x0c'

/-- Python `s.strip()`: drop leading and trailing whitespace. -/
def pystrip (s : String) : String :=
  List.asString (((s.toList.dropWhile isPySpace).reverse.dropWhile isPySpace).reverse)

/-- services.py line 574: `"\n".join([t for t in combined_texts if t]).strip()`. -/
def combineTexts (texts : List String) : String :=
  pystrip (String.intercalate "\n" (texts.filter (fun t => ¬(t = ""))))

/-- services.py lines 98-99: `p.startswith("s3://")`, modelled on the char
list so that it evaluates by kernel reduction. -/
def is_s3_uri (p : String) : Bool := "s3://".toList.isPrefixOf p.toList

/-- Environment abstracting the external collaborators of `transcribe_audio`
(services.py lines 496-592): configuration flags mirror the module globals
(`aai is not None`, `ASSEMBLYAI_API_KEY`, `USE_OPENAI_TRANSCRIBE`,
`PROVIDER_MAX_BYTES`); the functions give the outcome of each external call
(`download_s3_to_temp`, `convert_to_mp3`, `upload_file_to_s3`,
`os.path.getsize`, `convert_to_wav_for_transcription`,
`transcribe_with_openai_chunk`, `transcribe_with_assemblyai`), with
`Except.error` modelling a raised exception.  `word_boost` and `language` are
forwarded to the providers opaquely and folded into the environment. -/
structure TranscribeEnv where
  aaiInstalled : Bool
  assemblyaiApiKey : String
  useOpenaiTranscribe : Bool
  providerMaxBytes : ℕ
  download : String → Except String String
  convertToMp3 : String → Except String String
  uploadToS3 : String → Except String String
  getSize : String → ℕ
  convertToWav : String → Except String String
  split : SplitEnv
  splitFuel : ℕ
  transcribeChunk : String → Except String ChunkReply
  assemblyai : String → Except String AAReply

/-- Temp files registered in `created_temp` once the upload has happened
(lines 505-516): the downloaded input when the argument was an s3:// URI, and
the converted mp3 when conversion produced a new file. -/
def createdTempAfterUpload (audioFile localIn mp3Path : String) : List String :=
  let ct : List String := if is_s3_uri audioFile then [localIn] else []
  if mp3Path ≠ localIn then ct ++ [mp3Path] else ct

/-- The chunked OpenAI fallback of `transcribe_audio` (services.py lines
544-577), beginning with the `USE_OPENAI_TRANSCRIBE` guard.  Returns
`(result, created_temp, other files created and never deleted)`; the third
component lists the chunk files produced by splitting (every returned chunk
path other than the WAV itself names a file newly created on disk), which
`transcribe_audio` never registers for cleanup.  `none` propagates fuel
exhaustion of the splitter. -/
def openaiFallback (env : TranscribeEnv) (base : TAResult) (mp3Path : String)
    (createdTemp : List String) :
    Option (Except String TAResult × List String × List String) :=
  if env.useOpenaiTranscribe = false then some (.ok base, createdTemp, [])
  else
    match env.convertToWav mp3Path with
    | .error e => some (.error e, createdTemp, [])
    | .ok wavPath =>
      let createdTemp := if wavPath ≠ mp3Path then createdTemp ++ [wavPath] else createdTemp
      let wavSize := env.getSize wavPath
      let chunkRes : Option (Except String (List String)) :=
        if env.providerMaxBytes < wavSize then
          splitWavToChunks env.split env.splitFuel wavPath env.providerMaxBytes
        else some (.ok [wavPath])
      match chunkRes with
      | none => none
      | some (.error e) => some (.error e, createdTemp, [])
      | some (.ok chunkPaths) =>
        let newFiles := chunkPaths.filter (fun p => ¬(p = wavPath))
        let outcomes := chunkPaths.map env.transcribeChunk
        let texts := (transcribeChunksLoop outcomes).1
        let raws := (transcribeChunksLoop outcomes).2
        let finalText := combineTexts texts
        let result : TAResult :=
          { base with
            text := some finalText
            speakers := some []
            provider_raw := some (.chunks raws) }
        some (.ok result, createdTemp, newFiles)

/-- The body of the `try` block of `transcribe_audio` (services.py lines
505-577): download if the input is an s3:// URI, convert to mp3, upload,
then return the base dictionary (upload-only), the hosted-provider result, or
fall through to the chunked fallback.  A hosted-provider exception is caught
and only logged (line 540-541), after which control falls to the fallback. -/
def transcribeBody (env : TranscribeEnv) (audioFile : String) (uploadOnly : Bool) :
    Option (Except String TAResult × List String × List String) :=
  match (if is_s3_uri audioFile then env.download audioFile else .ok audioFile :
      Except String String) with
  | .error e => some (.error e, [], [])
  | .ok localIn =>
    match env.convertToMp3 localIn with
    | .error e => some (.error e, (if is_s3_uri audioFile then [localIn] else []), [])
    | .ok mp3Path =>
      let createdTemp := createdTempAfterUpload audioFile localIn mp3Path
      match env.uploadToS3 mp3Path with
      | .error e => some (.error e, createdTemp, [])
      | .ok s3Uri =>
        let fileSize := env.getSize mp3Path
        let base : TAResult := { s3_uri := s3Uri, file_size := fileSize }
        if uploadOnly then some (.ok base, createdTemp, [])
        else if env.aaiInstalled = true ∧ ¬(env.assemblyaiApiKey = "") then
          match env.assemblyai mp3Path with
          | .ok aa =>
            let result : TAResult :=
              { base with
                text := some aa.text
                speakers := some aa.speakers
                provider_raw := some (.assembly aa.raw) }
            some (.ok result, createdTemp, [])
          | .error _ => openaiFallback env base mp3Path createdTemp
        else openaiFallback env base mp3Path createdTemp

/-- The `except`/`finally` wrapper of `transcribe_audio` (lines 579-592):
any exception escaping the body is re-raised wrapped in a RuntimeError
message, and the `finally` block unlinks every file in `created_temp` — so of
the files created during the call exactly the third component (the chunk
files) still exists at completion. -/
def finishRun (r : Option (Except String TAResult × List String × List String)) :
    Option (Except String TAResult × List String) :=
  match r with
  | none => none
  | some (.ok res, _createdTemp, newFiles) => some (.ok res, newFiles)
  | some (.error e, _createdTemp, newFiles) =>
    some (.error ("Error during upload/transcription process: " ++ e), newFiles)

/-- Shallow embedding of `transcribe_audio` (services.py lines 496-592).
Returns `none` when the splitter's fuel runs out, otherwise the call's
outcome (`Except.error` = raised exception) paired with the list of files
created during the call that still exist when it completes. -/
def transcribe_audio (env : TranscribeEnv) (audioFile : String)
    (uploadOnly : Bool := true) : Option (Except String TAResult × List String) :=
  if audioFile = "" then some (.error "No audio file provided", [])
  else finishRun (transcribeBody env audioFile uploadOnly)

lemma foldl_loopStep_eq (outcomes : List (Except String ChunkReply)) :
    ∀ t r, outcomes.foldl loopStep (t, r) =
      (t ++ outcomes.map slotText, r ++ outcomes.map slotRaw) := by
  induction outcomes with
  | nil => intro t r; simp
  | cons oc rest ih =>
    intro t r
    cases oc with
    | ok c =>
      simp only [List.foldl_cons, loopStep, List.map_cons, slotText, slotRaw]
      rw [ih]
      simp
    | error e =>
      simp only [List.foldl_cons, loopStep, List.map_cons, slotText, slotRaw]
      rw [ih]
      simp

lemma transcribeChunksLoop_eq (outcomes : List (Except String ChunkReply)) :
    transcribeChunksLoop outcomes = (outcomes.map slotText, outcomes.map slotRaw) := by
  unfold transcribeChunksLoop
  rw [foldl_loopStep_eq]
  simp

lemma getD_map_slot (outcomes : List (Except String ChunkReply)) :
    ∀ i, i < outcomes.length →
      (outcomes.map slotText).getD i "" = slotText (outcomes.getD i (.error "")) ∧
      (outcomes.map slotRaw).getD i (RawEntry.chunkError "") =
        slotRaw (outcomes.getD i (.error "")) := by
  induction outcomes with
  | nil => intro i hi; simp at hi
  | cons oc rest ih =>
    intro i hi
    cases i with
    | zero => simp
    | succ n =>
      simp only [List.map_cons, List.getD_cons_succ]
      exact ih n (by simpa using hi)

/-- Claim C2: in the chunk loop of `transcribe_audio`, a segment failure is
contained — both output lists still have one entry per segment, a failed
segment's text slot holds the placeholder marker and its raw slot the
chunk-error object, while a successful segment's slots hold its extracted
text and raw provider reply (services.py lines 562-572). -/
theorem C2_segment_failure_isolated (outcomes : List (Except String ChunkReply)) :
    (transcribeChunksLoop outcomes).1.length = outcomes.length ∧
    (transcribeChunksLoop outcomes).2.length = outcomes.length ∧
    ∀ i, i < outcomes.length →
      (∀ e, outcomes.getD i (.error "") = .error e →
          (transcribeChunksLoop outcomes).1.getD i "" = "(error transcribing chunk)" ∧
          (transcribeChunksLoop outcomes).2.getD i (RawEntry.chunkError "") =
            RawEntry.chunkError e) ∧
      (∀ r, outcomes.getD i (.error "") = .ok r →
          (transcribeChunksLoop outcomes).1.getD i "" = r.text ∧
          (transcribeChunksLoop outcomes).2.getD i (RawEntry.chunkError "") =
            RawEntry.reply r.raw) := by
  rw [transcribeChunksLoop_eq]
  refine ⟨by simp, by simp, ?_⟩
  intro i hi
  obtain ⟨h1, h2⟩ := getD_map_slot outcomes i hi
  constructor
  · intro e he
    rw [h1, h2, he]
    exact ⟨rfl, rfl⟩
  · intro r hr
    rw [h1, h2, hr]
    exact ⟨rfl, rfl⟩

theorem C2_segment_failure_isolated_witness :
    (transcribeChunksLoop [.ok ⟨"hello", "raw0"⟩, .error "boom", .ok ⟨"bye", "raw2"⟩]).1.getD 1 ""
        = "(error transcribing chunk)" ∧
      (transcribeChunksLoop [.ok ⟨"hello", "raw0"⟩, .error "boom",
          .ok ⟨"bye", "raw2"⟩]).2.getD 1 (RawEntry.chunkError "") =
        RawEntry.chunkError "boom" :=
  ((C2_segment_failure_isolated
    [.ok ⟨"hello", "raw0"⟩, .error "boom", .ok ⟨"bye", "raw2"⟩]).2.2
    1 (by decide)).1 "boom" rfl

/-- Claim C5: the texts accumulated by the chunk loop are exactly the
per-segment texts in original order, and the combined transcript is those
texts with empty entries omitted, joined by newlines, and stripped of
surrounding whitespace (services.py lines 562-574). -/
theorem C5_combined_in_order (outcomes : List (Except String ChunkReply)) :
    (transcribeChunksLoop outcomes).1 = outcomes.map slotText ∧
    combineTexts (transcribeChunksLoop outcomes).1 =
      pystrip (String.intercalate "\n"
        ((outcomes.map slotText).filter (fun t => ¬(t = "")))) := by
  rw [transcribeChunksLoop_eq]
  exact ⟨rfl, rfl⟩

/-- Amended claim C6: with no speech-to-text provider configured (hosted
credential absent and the chunked fallback disabled) and the download /
conversion / upload steps succeeding, `transcribe_audio` with
`upload_only=False` returns only the storage URI and byte size — no `text`,
`speakers` or `provider_raw` keys — raises nothing, and leaves no files
behind. -/
theorem C6_amended (env : TranscribeEnv) (audioFile localIn mp3Path s3Uri : String)
    (hA : env.aaiInstalled = false ∨ env.assemblyaiApiKey = "")
    (hU : env.useOpenaiTranscribe = false)
    (hne : ¬(audioFile = ""))
    (hDl : (if is_s3_uri audioFile then env.download audioFile else .ok audioFile :
      Except String String) = .ok localIn)
    (hC : env.convertToMp3 localIn = .ok mp3Path)
    (hUp : env.uploadToS3 mp3Path = .ok s3Uri) :
    transcribe_audio env audioFile false =
      some (.ok { s3_uri := s3Uri, file_size := env.getSize mp3Path }, []) := by
  rcases hA with h | h <;>
    simp [transcribe_audio, hne, transcribeBody, hDl, hC, hUp, h, openaiFallback, hU,
      finishRun]

/-- Environment in which no provider is configured and no ffmpeg is
installed, so mp3 conversion raises. -/
def noProviderEnv : TranscribeEnv where
  aaiInstalled := false
  assemblyaiApiKey := ""
  useOpenaiTranscribe := false
  providerMaxBytes := 100
  download := fun _ => .error "S3 client not configured"
  convertToMp3 := fun _ => .error "ffmpeg not found; set FFMPEG_PATH or install ffmpeg"
  uploadToS3 := fun _ => .error "No S3 bucket configured"
  getSize := fun _ => 0
  convertToWav := fun _ => .error "ffmpeg not found; set FFMPEG_PATH or install ffmpeg"
  split := boundaryEnv
  splitFuel := 1
  transcribeChunk := fun _ => .error "OpenAI client not initialized"
  assemblyai := fun _ => .error "AssemblyAI SDK not installed"

/-- Claim C6, as stated, is false on the code: with no provider configured at
all, `transcribe_audio(..., upload_only=False)` still raises when an earlier
step fails — here mp3 conversion fails because ffmpeg is missing, and the
wrapped RuntimeError of line 581 escapes. -/
theorem C6_counterexample :
    noProviderEnv.aaiInstalled = false ∧ noProviderEnv.useOpenaiTranscribe = false ∧
      transcribe_audio noProviderEnv "meeting.m4a" false =
        some (.error ("Error during upload/transcription process: " ++
          "ffmpeg not found; set FFMPEG_PATH or install ffmpeg"), []) :=
  ⟨rfl, rfl, rfl⟩

/-- Environment in which no provider is configured but conversion and upload
succeed. -/
def uploadOnlyEnv : TranscribeEnv where
  aaiInstalled := false
  assemblyaiApiKey := ""
  useOpenaiTranscribe := false
  providerMaxBytes := 100
  download := fun _ => .error "S3 client not configured"
  convertToMp3 := fun _ => .ok "meeting_converted.mp3"
  uploadToS3 := fun _ => .ok "s3://input-bucket/inputs/20251012_meeting_converted.mp3"
  getSize := fun _ => 12345
  convertToWav := fun _ => .error "unused"
  split := boundaryEnv
  splitFuel := 1
  transcribeChunk := fun _ => .error "unused"
  assemblyai := fun _ => .error "unused"

theorem C6_amended_witness :
    transcribe_audio uploadOnlyEnv "meeting.m4a" false =
      some (.ok { s3_uri := "s3://input-bucket/inputs/20251012_meeting_converted.mp3",
                  file_size := 12345 }, []) :=
  C6_amended uploadOnlyEnv "meeting.m4a" "meeting.m4a" "meeting_converted.mp3"
    "s3://input-bucket/inputs/20251012_meeting_converted.mp3"
    (Or.inl rfl) rfl (by decide) rfl rfl rfl

/-- Claim C7: once the upload has succeeded, `transcribe_audio` prefers the
hosted provider whenever its credential is configured — a successful hosted
call's result is returned directly — and on any hosted-provider exception
the call's outcome is exactly that of the chunked OpenAI fallback path,
independent of the raised error (services.py lines 531-548). -/
theorem C7_provider_preference_and_fallback (env : TranscribeEnv)
    (audioFile localIn mp3Path s3Uri : String)
    (hA : env.aaiInstalled = true) (hK : ¬(env.assemblyaiApiKey = ""))
    (hne : ¬(audioFile = ""))
    (hDl : (if is_s3_uri audioFile then env.download audioFile else .ok audioFile :
      Except String String) = .ok localIn)
    (hC : env.convertToMp3 localIn = .ok mp3Path)
    (hUp : env.uploadToS3 mp3Path = .ok s3Uri) :
    (∀ aa, env.assemblyai mp3Path = .ok aa →
      transcribe_audio env audioFile false =
        some (.ok { s3_uri := s3Uri
                    file_size := env.getSize mp3Path
                    text := some aa.text
                    speakers := some aa.speakers
                    provider_raw := some (.assembly aa.raw) }, [])) ∧
    (∀ e, env.assemblyai mp3Path = .error e →
      transcribe_audio env audioFile false =
        finishRun (openaiFallback env
          { s3_uri := s3Uri, file_size := env.getSize mp3Path } mp3Path
          (createdTempAfterUpload audioFile localIn mp3Path))) := by
  constructor
  · intro aa haa
    simp [transcribe_audio, hne, transcribeBody, hDl, hC, hUp, hA, hK, haa, finishRun]
  · intro e he
    simp [transcribe_audio, hne, transcribeBody, hDl, hC, hUp, hA, hK, he]

/-- Environment in which the hosted provider is configured and succeeds. -/
def assemblyEnv : TranscribeEnv where
  aaiInstalled := true
  assemblyaiApiKey := "aai-key"
  useOpenaiTranscribe := true
  providerMaxBytes := 100
  download := fun _ => .error "S3 client not configured"
  convertToMp3 := fun _ => .ok "meeting_converted.mp3"
  uploadToS3 := fun _ => .ok "s3://input-bucket/inputs/20251012_meeting_converted.mp3"
  getSize := fun _ => 12345
  convertToWav := fun _ => .error "unused"
  split := boundaryEnv
  splitFuel := 1
  transcribeChunk := fun _ => .error "unused"
  assemblyai := fun _ => .ok { text := "Speaker A: hello\n", speakers := ["A"], raw := "aa-raw" }

theorem C7_provider_preference_and_fallback_witness :
    transcribe_audio assemblyEnv "meeting.m4a" false =
      some (.ok { s3_uri := "s3://input-bucket/inputs/20251012_meeting_converted.mp3"
                  file_size := 12345
                  text := some "Speaker A: hello\n"
                  speakers := some ["A"]
                  provider_raw := some (.assembly "aa-raw") }, []) :=
  (C7_provider_preference_and_fallback assemblyEnv "meeting.m4a" "meeting.m4a"
      "meeting_converted.mp3" "s3://input-bucket/inputs/20251012_meeting_converted.mp3"
      rfl (by decide) (by decide) rfl rfl rfl).1
    { text := "Speaker A: hello\n", speakers := ["A"], raw := "aa-raw" } rfl

/-- Split environment for the chunk-file cleanup scenario: a 200-byte,
20-second WAV against a 100-byte limit, which ffmpeg segments into two
90-byte chunk files. -/
def chunkLeakSplitEnv : SplitEnv where
  pathExists := fun _ => true
  size := fun p => if p = "meeting_for_stt.wav" then 200 else 90
  duration := fun p => if p = "meeting_for_stt.wav" then 20 else 10
  ffmpegAvailable := true
  segment := fun _ _ => ["meeting_for_stt_chunk_000.wav", "meeting_for_stt_chunk_001.wav"]

lemma chunkLeak_target : targetSecondsOf 200 20 100 = 10 := by
  unfold targetSecondsOf pyint
  rw [max_eq_right (by norm_num : (1/1000 : ℚ) ≤ 20)]
  norm_num

lemma splitWavToChunks_step (env : SplitEnv) (fuel : ℕ) (wavPath : String) (maxBytes : ℕ)
    (hex : env.pathExists wavPath = true)
    (hsz : ¬ env.size wavPath ≤ maxBytes)
    (hts : ¬ pyint (env.duration wavPath) ≤
      targetSecondsOf (env.size wavPath) (env.duration wavPath) maxBytes)
    (hff : env.ffmpegAvailable = true) :
    splitWavToChunks env (fuel + 1) wavPath maxBytes =
      (match processChunks env (fun p b => splitWavToChunks env fuel p b) maxBytes
          (env.segment wavPath
            (targetSecondsOf (env.size wavPath) (env.duration wavPath) maxBytes)) with
        | none => none
        | some (.error e) => some (.error e)
        | some (.ok finalChunks) =>
          if finalChunks = [] then some (.ok [wavPath]) else some (.ok finalChunks)) := by
  simp only [splitWavToChunks]
  rw [if_neg (show ¬ env.pathExists wavPath = false by simp [hex])]
  rw [if_neg hsz]
  rw [if_neg hts]
  rw [if_neg (show ¬ env.ffmpegAvailable = false by simp [hff])]

lemma chunkLeak_split :
    splitWavToChunks chunkLeakSplitEnv 2 "meeting_for_stt.wav" 100 =
      some (.ok ["meeting_for_stt_chunk_000.wav", "meeting_for_stt_chunk_001.wav"]) := by
  rw [show (2:ℕ) = 1 + 1 from rfl]
  rw [splitWavToChunks_step chunkLeakSplitEnv 1 "meeting_for_stt.wav" 100 rfl
    (by norm_num [chunkLeakSplitEnv])
    (by
      show ¬ pyint (20:ℚ) ≤ targetSecondsOf 200 20 100
      rw [chunkLeak_target]
      norm_num [pyint])
    rfl]
  rfl

/-- Full environment for the cleanup scenario: local non-mp3 input, no hosted
provider, OpenAI fallback enabled, WAV above the provider byte limit so that
splitting produces chunk files, and every chunk transcribing successfully. -/
def chunkLeakEnv : TranscribeEnv where
  aaiInstalled := false
  assemblyaiApiKey := ""
  useOpenaiTranscribe := true
  providerMaxBytes := 100
  download := fun _ => .error "S3 client not configured"
  convertToMp3 := fun _ => .ok "meeting_converted.mp3"
  uploadToS3 := fun _ => .ok "s3://in/inputs/meeting_converted.mp3"
  getSize := fun p => if p = "meeting_for_stt.wav" then 200 else 50
  convertToWav := fun _ => .ok "meeting_for_stt.wav"
  split := chunkLeakSplitEnv
  splitFuel := 2
  transcribeChunk := fun _ => .ok { text := "hello", raw := "raw" }
  assemblyai := fun _ => .error "unused"

/-- Claim C8 is contradicted by the code: on a normal exit of a run whose WAV
had to be split, the two segment chunk files created by
`split_wav_to_chunks` still exist when `transcribe_audio` completes — they
are never added to `created_temp` and never unlinked (the `finally` block of
lines 582-592 removes only `created_temp`, and `clean_temp_files` is never
called), while the spec requires every temporary file, chunk files included,
to be deleted on every exit path. -/
theorem C8_chunk_files_left_behind :
    transcribe_audio chunkLeakEnv "meeting.m4a" false =
      some (.ok { s3_uri := "s3://in/inputs/meeting_converted.mp3"
                  file_size := 50
                  text := some "hello\nhello"
                  speakers := some []
                  provider_raw := some (.chunks [.reply "raw", .reply "raw"]) },
        ["meeting_for_stt_chunk_000.wav", "meeting_for_stt_chunk_001.wav"]) := by
  have h1 : transcribe_audio chunkLeakEnv "meeting.m4a" false =
      finishRun (openaiFallback chunkLeakEnv
        { s3_uri := "s3://in/inputs/meeting_converted.mp3", file_size := 50 }
        "meeting_converted.mp3" ["meeting_converted.mp3"]) := rfl
  rw [h1]
  have h2 : openaiFallback chunkLeakEnv
      { s3_uri := "s3://in/inputs/meeting_converted.mp3", file_size := 50 }
      "meeting_converted.mp3" ["meeting_converted.mp3"] =
      some (.ok { s3_uri := "s3://in/inputs/meeting_converted.mp3"
                  file_size := 50
                  text := some "hello\nhello"
                  speakers := some []
                  provider_raw := some (.chunks [.reply "raw", .reply "raw"]) },
        ["meeting_converted.mp3", "meeting_for_stt.wav"],
        ["meeting_for_stt_chunk_000.wav", "meeting_for_stt_chunk_001.wav"]) := by
    simp [openaiFallback, chunkLeakEnv, chunkLeak_split]
    exact ⟨rfl, rfl⟩
  rw [h2]
  rfl

/-- Characters admitted by the sanitiser's regex class `[A-Za-z0-9._-]`
(services.py line 381). -/
def isKeyChar (c : Char) : Bool :=
  c.isAlpha ∨ c.isDigit ∨ c = '.' ∨ c = '_' ∨ c = '-'

/-- Python `re.sub(r"[^A-Za-z0-9._-]+", "_", s)` on the char list: each
maximal run of characters outside the class becomes a single underscore.
The flag records whether the previous character belonged to such a run. -/
def subRuns : Bool → List Char → List Char
  | _, [] => []
  | inRun, c :: rest =>
    if isKeyChar c then c :: subRuns false rest
    else if inRun then subRuns true rest
    else '_' :: subRuns true rest

/-- Python `cleaned.strip("_")` on a char list. -/
def stripUnderscores (l : List Char) : List Char :=
  ((l.dropWhile (fun c => c = '_')).reverse.dropWhile (fun c => c = '_')).reverse

/-- Shallow embedding of `sanitize_for_key` (services.py lines 377-386). -/
def sanitize_for_key (s : String) (maxLen : ℕ := 120) : String :=
  if s = "" then "unnamed"
  else
    let cleaned := List.asString (stripUnderscores (subRuns false s.toList))
    let cleaned :=
      if maxLen < cleaned.length then List.asString (cleaned.toList.take maxLen) else cleaned
    if cleaned = "" then "unnamed" else cleaned

lemma mem_dropWhile_subset (p : Char → Bool) :
    ∀ (l : List Char) (c : Char), c ∈ l.dropWhile p → c ∈ l := by
  intro l
  induction l with
  | nil => intro c hc; simp at hc
  | cons a rest ih =>
    intro c hc
    rw [List.dropWhile_cons] at hc
    by_cases hp : p a = true
    · rw [if_pos hp] at hc
      exact List.mem_cons_of_mem a (ih c hc)
    · rw [if_neg hp] at hc
      exact hc

lemma stripUnderscores_subset (l : List Char) (c : Char)
    (hc : c ∈ stripUnderscores l) : c ∈ l := by
  unfold stripUnderscores at hc
  rw [List.mem_reverse] at hc
  have h1 := mem_dropWhile_subset _ _ c hc
  rw [List.mem_reverse] at h1
  exact mem_dropWhile_subset _ _ c h1

lemma subRuns_mem : ∀ (b : Bool) (l : List Char), ∀ c ∈ subRuns b l, isKeyChar c = true := by
  intro b l
  induction l generalizing b with
  | nil => intro c hc; simp [subRuns] at hc
  | cons a rest ih =>
    intro c hc
    simp only [subRuns] at hc
    by_cases hk : isKeyChar a = true
    · rw [if_pos hk] at hc
      rcases List.mem_cons.mp hc with rfl | h
      · exact hk
      · exact ih false c h
    · rw [if_neg hk] at hc
      cases b with
      | true => exact ih true c (by simpa using hc)
      | false =>
        rcases List.mem_cons.mp (by simpa using hc) with rfl | h
        · decide
        · exact ih true c h

lemma subRuns_all_invalid : ∀ l : List Char, (∀ c ∈ l, isKeyChar c = false) →
    subRuns true l = [] ∧ subRuns false l = if l = [] then [] else ['_'] := by
  intro l
  induction l with
  | nil => intro _; exact ⟨rfl, by simp [subRuns]⟩
  | cons a rest ih =>
    intro hall
    have ha : isKeyChar a = false := hall a (List.mem_cons_self a rest)
    have hrest := ih (fun c hc => hall c (List.mem_cons_of_mem a hc))
    refine ⟨?_, ?_⟩
    · simp [subRuns, ha, hrest.1]
    · simp [subRuns, ha, hrest.1]

lemma sanitize_all_invalid (s : String) (maxLen : ℕ)
    (h : s = "" ∨ ∀ c ∈ s.toList, isKeyChar c = false) :
    sanitize_for_key s maxLen = "unnamed" := by
  rcases h with rfl | hall
  · rfl
  · by_cases hs : s = ""
    · subst hs; rfl
    · have h0 := (subRuns_all_invalid s.toList hall).2
      simp only [sanitize_for_key, if_neg hs]
      rw [h0]
      by_cases hnil : s.toList = []
      · rw [if_pos hnil]
        simp [stripUnderscores, String.asString_nil]
      · rw [if_neg hnil]
        rw [show stripUnderscores (['_'] : List Char) = [] from rfl]
        simp [String.asString_nil]

lemma sanitize_cases (s : String) (maxLen : ℕ) :
    sanitize_for_key s maxLen = "unnamed" ∨
      (¬ sanitize_for_key s maxLen = "" ∧
        (sanitize_for_key s maxLen).length ≤ maxLen ∧
        ∀ c ∈ (sanitize_for_key s maxLen).toList, isKeyChar c = true) := by
  by_cases hs : s = ""
  · exact Or.inl (by simp [sanitize_for_key, hs])
  · simp only [sanitize_for_key, if_neg hs]
    by_cases htr : maxLen < (List.asString (stripUnderscores (subRuns false s.toList))).length
    · rw [if_pos htr]
      by_cases hemp : List.asString
          ((List.asString (stripUnderscores (subRuns false s.toList))).toList.take maxLen) = ""
      · rw [if_pos hemp]
        exact Or.inl rfl
      · rw [if_neg hemp]
        refine Or.inr ⟨hemp, ?_, ?_⟩
        · rw [List.length_asString, List.toList_asString, List.length_take]
          exact min_le_left _ _
        · intro c hc
          rw [List.toList_asString] at hc
          have hc2 := List.take_subset _ _ hc
          rw [List.toList_asString] at hc2
          exact subRuns_mem false s.toList c (stripUnderscores_subset _ c hc2)
    · rw [if_neg htr]
      by_cases hemp : List.asString (stripUnderscores (subRuns false s.toList)) = ""
      · rw [if_pos hemp]
        exact Or.inl rfl
      · rw [if_neg hemp]
        refine Or.inr ⟨hemp, Nat.le_of_not_lt htr, ?_⟩
        intro c hc
        rw [List.toList_asString] at hc
        exact subRuns_mem false s.toList c (stripUnderscores_subset _ c hc)

/-- Claim C9, as stated, is false on the code: for input `"@"` and
`max_len = 3`, `sanitize_for_key` returns the fallback `"unnamed"`, whose
length 7 exceeds `max_len`. -/
theorem C9_counterexample :
    sanitize_for_key "@" 3 = "unnamed" ∧ ¬ (sanitize_for_key "@" 3).length ≤ 3 := by
  constructor <;> decide

/-- Claim C9 (amended): `sanitize_for_key` always returns a non-empty string
of characters drawn from the ASCII letters, digits, dot, underscore and
hyphen; its length is at most `max_len` except when the fallback
`"unnamed"` (length 7) is returned; and the empty string, as well as any
string containing no admissible character, maps to `"unnamed"`. -/
theorem C9_amended (s : String) (maxLen : ℕ) :
    ¬ (sanitize_for_key s maxLen = "") ∧
    (∀ c ∈ (sanitize_for_key s maxLen).toList, isKeyChar c = true) ∧
    ((sanitize_for_key s maxLen).length ≤ maxLen ∨ sanitize_for_key s maxLen = "unnamed") ∧
    ((s = "" ∨ ∀ c ∈ s.toList, isKeyChar c = false) → sanitize_for_key s maxLen = "unnamed") := by
  refine ⟨?_, ?_, ?_, fun h => sanitize_all_invalid s maxLen h⟩
  · rcases sanitize_cases s maxLen with h | h
    · rw [h]; decide
    · exact h.1
  · rcases sanitize_cases s maxLen with h | h
    · rw [h]; decide
    · exact h.2.2
  · rcases sanitize_cases s maxLen with h | h
    · exact Or.inr h
    · exact Or.inl h.2.1

theorem C9_amended_witness :
    ¬ (sanitize_for_key "My Meeting (final).mp3" 120 = "") ∧
    (∀ c ∈ (sanitize_for_key "My Meeting (final).mp3" 120).toList, isKeyChar c = true) ∧
    ((sanitize_for_key "My Meeting (final).mp3" 120).length ≤ 120 ∨
      sanitize_for_key "My Meeting (final).mp3" 120 = "unnamed") ∧
    (("My Meeting (final).mp3" = "" ∨
        ∀ c ∈ ("My Meeting (final).mp3" : String).toList, isKeyChar c = false) →
      sanitize_for_key "My Meeting (final).mp3" 120 = "unnamed") :=
  C9_amended "My Meeting (final).mp3" 120

end BrightNotes
